import Mathlib

/-!
Verification development for the AllanEcho voice-memo / live-translation client.

The definitions below are a shallow embedding of the TypeScript sources:
`src/App.tsx` (memo persistence, logging, recording pipeline, deletion),
`src/services/geminiService` (`normalizeMimeType`), `src/types`
(`Memo`, `ProcessingStatus`), and the Translator component carrying the
request-id cancellation mechanism (`cancelTranslation`, `handleTranslation`,
re-translation effect).  JavaScript numbers are modelled by `ℚ`, optional
boolean fields (`isProcessing?: boolean`) by `Option Bool` (absent = `none`),
and JSON values by an explicit inductive type so that the
`localStorage` serialize/parse round trip can be stated faithfully.
-/

/-- `ProcessingStatus` enum from `src/types`. -/
inductive ProcessingStatus where
  | IDLE
  | RECORDING
  | TRANSCRIBING
  | SUMMARIZING
  | TRANSLATING
  | ERROR
deriving DecidableEq, Repr

/-- The `Memo` interface from `src/types`: `id`, `timestamp`, `audioBase64`,
`mimeType`, `transcript`, `summary`, `duration`, and the optional flags
`isProcessing?` and `error?`.  JS numbers are modelled by `ℚ`; the optional
boolean fields by `Option Bool` (`none` = the key is absent / `undefined`). -/
structure Memo where
  id : String
  timestamp : ℚ
  audioBase64 : String
  mimeType : String
  transcript : String
  summary : String
  duration : ℚ
  isProcessing : Option Bool
  error : Option Bool
deriving DecidableEq, Repr

/-- JSON values, used to model `JSON.stringify`/`JSON.parse` on the
`localStorage` persistence path of `App.tsx`. -/
inductive JsonValue where
  | null
  | bool (b : Bool)
  | num (q : ℚ)
  | str (s : String)
  | arr (elems : List JsonValue)
  | obj (fields : List (String × JsonValue))

/-- The browser `localStorage`: a partial map from string keys to stored
JSON values (the stored string, already parsed). -/
def LocalStorage : Type := String → Option JsonValue

/-- First field of an object with the given key, as `JSON.parse` result
field access: `none` when the key is absent. -/
def lookupField (fields : List (String × JsonValue)) (key : String) : Option JsonValue :=
  (fields.find? (fun p => p.1 == key)).map (fun p => p.2)

/-- Read a JSON value as a string. -/
def asStr : Option JsonValue → Option String
  | some (JsonValue.str s) => some s
  | _ => none

/-- Read a JSON value as a number. -/
def asNum : Option JsonValue → Option ℚ
  | some (JsonValue.num q) => some q
  | _ => none

/-- Read an optional boolean field: an absent key is `undefined` (`none`),
a boolean is kept, anything else fails to be a `Memo` field. -/
def asOptBool : Option JsonValue → Option (Option Bool)
  | some (JsonValue.bool b) => some (some b)
  | none => some none
  | _ => none

/-- `JSON.stringify` of an optional boolean member: `undefined` members are
dropped from the serialized object. -/
def encodeOptBool (key : String) (v : Option Bool) : List (String × JsonValue) :=
  match v with
  | none => []
  | some b => [(key, JsonValue.bool b)]

/-- `JSON.stringify` of one `Memo` (object member order as in the record). -/
def encodeMemo (m : Memo) : JsonValue :=
  JsonValue.obj
    ([("id", JsonValue.str m.id),
      ("timestamp", JsonValue.num m.timestamp),
      ("audioBase64", JsonValue.str m.audioBase64),
      ("mimeType", JsonValue.str m.mimeType),
      ("transcript", JsonValue.str m.transcript),
      ("summary", JsonValue.str m.summary),
      ("duration", JsonValue.num m.duration)]
      ++ encodeOptBool "isProcessing" m.isProcessing
      ++ encodeOptBool "error" m.error)

/-- Reading one parsed JSON value back as a `Memo` (the untyped
`JSON.parse(saved)` result is used as a `Memo` by `App.tsx`). -/
def decodeMemo (j : JsonValue) : Option Memo :=
  match j with
  | JsonValue.obj fields =>
    match asStr (lookupField fields "id"), asNum (lookupField fields "timestamp"),
          asStr (lookupField fields "audioBase64"), asStr (lookupField fields "mimeType"),
          asStr (lookupField fields "transcript"), asStr (lookupField fields "summary"),
          asNum (lookupField fields "duration"), asOptBool (lookupField fields "isProcessing"),
          asOptBool (lookupField fields "error") with
    | some i, some ts, some ab, some mt, some tr, some su, some d, some p, some e =>
        some ⟨i, ts, ab, mt, tr, su, d, p, e⟩
    | _, _, _, _, _, _, _, _, _ => none
  | _ => none

/-- Decode every element of a parsed JSON array. -/
def decodeAll : List JsonValue → Option (List Memo)
  | [] => some []
  | j :: js =>
    match decodeMemo j, decodeAll js with
    | some m, some ms => some (m :: ms)
    | _, _ => none

/-- Decode a parsed JSON value as a memo list. -/
def decodeMemoList (j : JsonValue) : Option (List Memo) :=
  match j with
  | JsonValue.arr xs => decodeAll xs
  | _ => none

theorem decodeMemo_encodeMemo (m : Memo) : decodeMemo (encodeMemo m) = some m := by
  obtain ⟨i, ts, ab, mt, tr, su, d, p, e⟩ := m
  cases p <;> cases e <;> rfl

theorem decodeAll_encode (ms : List Memo) : decodeAll (ms.map encodeMemo) = some ms := by
  induction ms with
  | nil => rfl
  | cons m l ih => simp [decodeAll, decodeMemo_encodeMemo, ih]

/-! ## Persistence path of `App.tsx` (load/save effects, lines 38-62) -/

/-- The `localStorage` key used by `App.tsx`. -/
def memosKey : String := "echo_mind_memos"

/-- Per-memo cleaning applied by the save effect (`App.tsx` line 56):
`m.isProcessing ? { ...m, isProcessing: false, error: true, summary: "Processing failed" } : m`. -/
def cleanOnSave (m : Memo) : Memo :=
  if m.isProcessing = some true then
    { m with isProcessing := some false, error := some true, summary := "Processing failed" }
  else m

/-- Per-memo cleaning applied by the load effect (`App.tsx` line 44):
`m.isProcessing ? { ...m, isProcessing: false, error: true, summary: "Processing interrupted" } : m`. -/
def cleanOnLoad (m : Memo) : Memo :=
  if m.isProcessing = some true then
    { m with isProcessing := some false, error := some true, summary := "Processing interrupted" }
  else m

/-- The save effect (`App.tsx` lines 53-62): serialize the cleaned memo list
under the key `echo_mind_memos`. -/
def saveEffect (memos : List Memo) (store : LocalStorage) : LocalStorage :=
  fun k =>
    if k = memosKey then some (JsonValue.arr ((memos.map cleanOnSave).map encodeMemo))
    else store k

/-- The load effect (`App.tsx` lines 38-51): read the key, parse, clean every
parsed memo; when the key is absent or parsing fails the memo state
(`memos0`, the state at mount) is left unchanged. -/
def loadEffect (store : LocalStorage) (memos0 : List Memo) : List Memo :=
  match store memosKey with
  | none => memos0
  | some j =>
    match decodeMemoList j with
    | some parsed => parsed.map cleanOnLoad
    | none => memos0

theorem cleanOnSave_eq_self (m : Memo) (h : m.isProcessing ≠ some true) :
    cleanOnSave m = m := by
  unfold cleanOnSave
  rw [if_neg h]

theorem cleanOnLoad_eq_self (m : Memo) (h : m.isProcessing ≠ some true) :
    cleanOnLoad m = m := by
  unfold cleanOnLoad
  rw [if_neg h]

theorem map_clean_id (f : Memo → Memo) (hf : ∀ m, m.isProcessing ≠ some true → f m = m)
    (ms : List Memo) (h : ∀ m ∈ ms, m.isProcessing ≠ some true) : ms.map f = ms := by
  induction ms with
  | nil => rfl
  | cons a l ih =>
    simp only [List.map_cons]
    rw [hf a (h a (List.mem_cons_self a l)), ih (fun m hm => h m (List.mem_cons_of_mem a hm))]

theorem saveEffect_at_key (ms : List Memo) (store : LocalStorage) :
    saveEffect ms store memosKey
      = some (JsonValue.arr ((ms.map cleanOnSave).map encodeMemo)) := by
  unfold saveEffect
  rw [if_pos rfl]

/-! ## System log buffer (`App.tsx` lines 21-29) -/

/-- A `LogEntry` as used by `App.tsx`: `id`, `timestamp`, the entry kind
(`'INFO' | 'ERROR' | 'WARNING'`, field named `logType` because `type` is a
Lean keyword), `source`, `message` and optional `details`. -/
structure LogEntry where
  id : String
  timestamp : ℚ
  logType : String
  source : String
  message : String
  details : Option JsonValue

/-- `addLog` state update (`App.tsx` line 27):
`setLogs(prev => [newLog, ...prev].slice(0, 50))`. -/
def addLog (newLog : LogEntry) (prev : List LogEntry) : List LogEntry :=
  (newLog :: prev).take 50

theorem addLog_foldl_length_le (entries acc : List LogEntry) (h : acc.length ≤ 50) :
    (List.foldl (fun a x => addLog x a) acc entries).length ≤ 50 := by
  induction entries generalizing acc with
  | nil => simpa using h
  | cons e es ih =>
    simp only [List.foldl_cons]
    exact ih (addLog e acc) (List.length_take_le 50 _)

/-! ## Memo lifecycle operations of `App.tsx` -/

/-- Per-memo update applied when the transcription result arrives
(`App.tsx` line 135): `m.id === memoId ? { ...m, transcript } : m`. -/
def transcriptUpd (memoId transcript : String) (m : Memo) : Memo :=
  if m.id = memoId then { m with transcript := transcript } else m

/-- `setMemos(prev => prev.map(...))` for the transcription result. -/
def applyTranscript (memoId transcript : String) (ms : List Memo) : List Memo :=
  ms.map (transcriptUpd memoId transcript)

/-- Per-memo update applied when the summarization result arrives
(`App.tsx` line 139): `m.id === memoId ? { ...m, summary, isProcessing: false } : m`. -/
def summaryUpd (memoId summary : String) (m : Memo) : Memo :=
  if m.id = memoId then { m with summary := summary, isProcessing := some false } else m

/-- `setMemos(prev => prev.map(...))` for the summarization result. -/
def applySummary (memoId summary : String) (ms : List Memo) : List Memo :=
  ms.map (summaryUpd memoId summary)

/-- `deleteMemo` (`App.tsx` lines 151-153):
`setMemos(prev => prev.filter(m => m.id !== id))`. -/
def deleteMemo (id : String) (ms : List Memo) : List Memo :=
  ms.filter (fun m => m.id ≠ id)

/-- A recorded `Blob` as far as `handleRecordingComplete` observes it:
its byte size and its MIME type string. -/
structure BlobModel where
  size : ℕ
  type : String

/-- `blob.type.split(';')[0]` (`App.tsx` line 115). -/
def cleanMimeOf (blobType : String) : String :=
  (blobType.splitOn ";").headD ""

/-- The initial memo built by `handleRecordingComplete` (`App.tsx` lines
120-129).  `duration || 1` stores `1` exactly when the JS number `duration`
is falsy, i.e. `0` in the `ℚ` model. -/
def initialMemo (memoId : String) (now : ℚ) (base64 mime : String) (duration : ℚ) : Memo :=
  { id := memoId
    timestamp := now
    audioBase64 := base64
    mimeType := mime
    transcript := "Analysing voice patterns..."
    summary := "Gemini is thinking..."
    duration := if duration = 0 then 1 else duration
    isProcessing := some true
    error := none }

/-- The memo-list effect of the entry of `handleRecordingComplete`
(`App.tsx` lines 112-130): the guard
`if (duration < 0.2 && blob.size === 0) return;` adds nothing; otherwise the
initial memo is prepended (`setMemos(prev => [initialMemo, ...prev])`). -/
def handleRecordingCreate (blob : BlobModel) (duration : ℚ) (memoId : String) (now : ℚ)
    (base64 : String) (ms : List Memo) : List Memo :=
  if duration < 2/10 ∧ blob.size = 0 then ms
  else initialMemo memoId now base64 (cleanMimeOf blob.type) duration :: ms

/-- Top-level `App` state observed by the recording pipeline. -/
structure AppState where
  memos : List Memo
  status : ProcessingStatus

/-- The intermediate states of the success path of
`handleRecordingComplete`. -/
structure RecordingStages where
  created : AppState
  transcribed : AppState
  summarized : AppState
  final : AppState

/-- Success path of `handleRecordingComplete` (`App.tsx` lines 118-142), with
the two awaited API calls given as oracle functions `transcribe` (base64 and
MIME type to transcript) and `summarize` (transcript to summary).  The code
is sequential: it awaits `transcribeAudio`, applies the transcript, then
awaits `summarizeTranscript` on that transcript, applies the summary
clearing `isProcessing`, and finally returns the status to `IDLE`. -/
def recordingSuccessStages (transcribe : String → String → String)
    (summarize : String → String) (memoId : String) (now : ℚ) (blob : BlobModel)
    (base64 : String) (duration : ℚ) (s0 : AppState) : RecordingStages :=
  let mime := cleanMimeOf blob.type
  let s1 : AppState :=
    { memos := initialMemo memoId now base64 mime duration :: s0.memos
      status := ProcessingStatus.TRANSCRIBING }
  let transcript := transcribe base64 mime
  let s2 : AppState := { memos := applyTranscript memoId transcript s1.memos, status := s1.status }
  let s3 : AppState := { s2 with status := ProcessingStatus.SUMMARIZING }
  let summary := summarize transcript
  let s4 : AppState := { memos := applySummary memoId summary s3.memos, status := s3.status }
  let s5 : AppState := { s4 with status := ProcessingStatus.IDLE }
  ⟨s1, s2, s4, s5⟩

/-! ## MIME normalization (`src/services/geminiService`, `normalizeMimeType`) -/

/-- Boolean infix test on character lists (needle, then haystack). -/
def listInfixTest (pat : List Char) : List Char → Bool
  | [] => pat.isEmpty
  | c :: cs => pat.isPrefixOf (c :: cs) || listInfixTest pat cs

/-- JS `haystack.includes(needle)`. -/
def jsIncludes (haystack needle : String) : Bool :=
  listInfixTest needle.toList haystack.toList

/-- `normalizeMimeType` from `src/services/geminiService` (lines 8-16). -/
def normalizeMimeType (mimeType : String) : String :=
  let lower := mimeType.toLower
  if jsIncludes lower "webm" then "audio/webm"
  else if jsIncludes lower "mp4" || jsIncludes lower "m4a"
        || jsIncludes lower "x-m4a" || jsIncludes lower "aac" then "audio/mp4"
  else if jsIncludes lower "mpeg" || jsIncludes lower "mp3" then "audio/mpeg"
  else if jsIncludes lower "wav" then "audio/wav"
  else "audio/mp4"

/-! ## Translation flow with request-id stale-response guard
(the Translator component carrying `requestIdRef`/`cancelTranslation`) -/

/-- A translation result: `{ original, translated }`. -/
structure TransData where
  original : String
  translated : String
deriving DecidableEq, Repr

/-- The Translator state touched by the request-id mechanism:
`requestIdRef.current`, `translationData`, `lastTranslatedToRef.current`,
the shared `status`, and `uploadProgress`. -/
structure TransState where
  requestId : ℕ
  translationData : Option TransData
  lastTranslatedTo : String
  status : ProcessingStatus
  uploadProgress : Bool
deriving DecidableEq, Repr

/-- `cancelTranslation` (Translator lines 39-43):
`requestIdRef.current += 1; setStatus(IDLE); setUploadProgress(false)`. -/
def cancelTranslation (s : TransState) : TransState :=
  { s with requestId := s.requestId + 1
           status := ProcessingStatus.IDLE
           uploadProgress := false }

/-- Start of `handleTranslation` (lines 128-131): capture
`currentRequestId = ++requestIdRef.current`, set `TRANSLATING`, show upload
progress, clear `translationData`.  Returns the captured id with the new
state. -/
def beginTranslation (s : TransState) : ℕ × TransState :=
  (s.requestId + 1,
   { s with requestId := s.requestId + 1
            status := ProcessingStatus.TRANSLATING
            uploadProgress := true
            translationData := none })

/-- Start of the re-translation effect (`performReTranslation`, lines 53-55):
capture `currentRequestId = ++requestIdRef.current`, set `TRANSLATING`. -/
def beginReTranslation (s : TransState) : ℕ × TransState :=
  (s.requestId + 1,
   { s with requestId := s.requestId + 1
            status := ProcessingStatus.TRANSLATING })

/-- The `reader.onloadend` entry guard (line 136): a stale callback returns
before touching any state; a current one clears `uploadProgress`. -/
def onAudioLoaded (rid : ℕ) (s : TransState) : TransState :=
  if rid = s.requestId then { s with uploadProgress := false } else s

/-- Arrival of the `translateAudio` response (lines 141-145): applied only
when the captured id still equals the counter. -/
def applyTranslateAudioSuccess (rid : ℕ) (target : String) (data : TransData)
    (s : TransState) : TransState :=
  if rid = s.requestId then
    { s with translationData := some data
             lastTranslatedTo := target
             status := ProcessingStatus.IDLE }
  else s

/-- `translateAudio` failure (lines 147-151): the error status is applied
only when the captured id still equals the counter. -/
def applyTranslateAudioError (rid : ℕ) (s : TransState) : TransState :=
  if rid = s.requestId then { s with status := ProcessingStatus.ERROR } else s

/-- Arrival of the `translateText` re-translation response (lines 61-65). -/
def applyReTranslateSuccess (rid : ℕ) (target translated : String)
    (s : TransState) : TransState :=
  if rid = s.requestId then
    { s with translationData := s.translationData.map (fun d => { d with translated := translated })
             lastTranslatedTo := target
             status := ProcessingStatus.IDLE }
  else s

/-- `translateText` re-translation failure (lines 67-71). -/
def applyReTranslateError (rid : ℕ) (s : TransState) : TransState :=
  if rid = s.requestId then { s with status := ProcessingStatus.ERROR } else s

/-- The behaviour of `normalizeMimeType` as the specification words it:
`'audio/webm'` if the lowercased input contains `'webm'`; otherwise
`'audio/mp4'` if it contains `'mp4'`, `'m4a'`, `'x-m4a'`, or `'aac'`;
otherwise `'audio/mpeg'` if it contains `'mpeg'` or `'mp3'`; otherwise
`'audio/wav'` if it contains `'wav'`; otherwise the fallback `'audio/mp4'`. -/
def normalizeMimeTypeSpec (mimeType : String) : String :=
  let lower := mimeType.toLower
  if jsIncludes lower "webm" then "audio/webm"
  else if jsIncludes lower "mp4" || jsIncludes lower "m4a"
        || jsIncludes lower "x-m4a" || jsIncludes lower "aac" then "audio/mp4"
  else if jsIncludes lower "mpeg" || jsIncludes lower "mp3" then "audio/mpeg"
  else if jsIncludes lower "wav" then "audio/wav"
  else "audio/mp4"

/-! ## Concrete sample values used by witness theorems -/

/-- A memo that is not processing. -/
def memoA : Memo := ⟨"a", 0, "QUJD", "audio/webm", "hello", "greeting", 3, none, none⟩

/-- Another memo with a different id, flags present but false. -/
def memoB : Memo := ⟨"b", 1, "REVG", "audio/mp4", "bye", "farewell", 2, some false, some false⟩

/-- A memo persisted mid-processing. -/
def memoProc : Memo := ⟨"c", 2, "R0hJ", "audio/mp4", "...", "Gemini is thinking...", 1, some true, none⟩

/-- A sample log entry. -/
def sampleLog : LogEntry := ⟨"log-1", 0, "INFO", "System", "started", none⟩

/-- An empty browser storage. -/
def emptyStore : LocalStorage := fun _ => none

/-! ## The claims -/

/-- C3: for every input string, `normalizeMimeType` returns `'audio/webm'` if
the lowercased input contains `'webm'`; otherwise `'audio/mp4'` if it contains
`'mp4'`, `'m4a'`, `'x-m4a'`, or `'aac'`; otherwise `'audio/mpeg'` if it
contains `'mpeg'` or `'mp3'`; otherwise `'audio/wav'` if it contains `'wav'`;
otherwise the fallback `'audio/mp4'` — i.e. the source function agrees with
the specification-worded function on every input. -/
theorem normalizeMimeType_matches_spec (s : String) :
    normalizeMimeType s = normalizeMimeTypeSpec s := rfl

/-- C5: `deleteMemo` removes exactly the memo whose id equals the given id:
no memo with that id remains, every memo with a different id is still present
unmodified, and the remaining memos form a sublist of the original list (so
their relative order is preserved). -/
theorem deleteMemo_removes_exactly_id (id : String) (ms : List Memo) :
    (∀ m ∈ deleteMemo id ms, m.id ≠ id) ∧
    (∀ m ∈ ms, m.id ≠ id → m ∈ deleteMemo id ms) ∧
    List.Sublist (deleteMemo id ms) ms := by
  refine ⟨?_, ?_, List.filter_sublist _⟩
  · intro m hm
    have h := List.of_mem_filter hm
    simpa using h
  · intro m hm hne
    exact List.mem_filter.mpr ⟨hm, by simpa using hne⟩

theorem deleteMemo_removes_exactly_id_witness :
    memoB ∈ deleteMemo "a" [memoA, memoB] :=
  (deleteMemo_removes_exactly_id "a" [memoA, memoB]).2.1 memoB (by simp) (by decide)

/-- C6: a `Memo` record holds exactly the fields the specification lists —
id, timestamp, audioBase64, mimeType, transcript, summary, duration, and the
transient processing/error flags — and nothing else: the projection onto that
9-tuple of fields is a bijection, so a memo carries no information beyond
those fields and every combination of them is a memo. -/
theorem memo_fields_exactly_spec :
    Function.Bijective (fun m : Memo =>
      (m.id, m.timestamp, m.audioBase64, m.mimeType, m.transcript, m.summary,
       m.duration, m.isProcessing, m.error)) := by
  constructor
  · intro a b h
    obtain ⟨i₁, t₁, a₁, m₁, r₁, s₁, d₁, p₁, e₁⟩ := a
    obtain ⟨i₂, t₂, a₂, m₂, r₂, s₂, d₂, p₂, e₂⟩ := b
    simpa using h
  · rintro ⟨i, ts, ab, mt, tr, su, d, p, e⟩
    exact ⟨⟨i, ts, ab, mt, tr, su, d, p, e⟩, rfl⟩

/-- C9: the system log buffer is bounded and newest-first: any sequence of
`addLog` calls starting from the empty list yields at most 50 entries, a
single `addLog` always yields at most 50 entries and places the new entry at
the front, and when the 50-entry bound is already reached the oldest (last)
entry is dropped. -/
theorem addLog_bounded_newest_first (entries prev : List LogEntry) (e : LogEntry)
    (hfull : prev.length = 50) :
    (List.foldl (fun a x => addLog x a) [] entries).length ≤ 50 ∧
    (addLog e prev).head? = some e ∧
    (∀ p : List LogEntry, (addLog e p).length ≤ 50) ∧
    addLog e prev = e :: prev.dropLast := by
  refine ⟨addLog_foldl_length_le entries [] (by simp), rfl,
    fun p => List.length_take_le 50 _, ?_⟩
  unfold addLog
  have h1 : (e :: prev).take 50 = e :: prev.take 49 := List.take_succ_cons
  rw [h1, List.dropLast_eq_take, hfull]

theorem addLog_bounded_newest_first_witness :
    addLog sampleLog (List.replicate 50 sampleLog)
      = sampleLog :: (List.replicate 50 sampleLog).dropLast :=
  (addLog_bounded_newest_first [] (List.replicate 50 sampleLog) sampleLog (by simp)).2.2.2

theorem loadEffect_decodes (store : LocalStorage) (ms0 parsed : List Memo)
    (hstore : store memosKey = some (JsonValue.arr (parsed.map encodeMemo))) :
    loadEffect store ms0 = parsed.map cleanOnLoad := by
  have hdec : decodeMemoList (JsonValue.arr (parsed.map encodeMemo)) = some parsed := by
    simpa [decodeMemoList] using decodeAll_encode parsed
  simp only [loadEffect, hstore, hdec]

/-- C1: no memo is ever persisted with `isProcessing` true.  On the save path
every memo with `isProcessing` true is stored with `isProcessing` false,
`error` true and summary `"Processing failed"`; the save effect writes exactly
the cleaned list; the load effect returns the parsed list cleaned per memo;
and on the load path every parsed memo with `isProcessing` true becomes
`isProcessing` false, `error` true, summary `"Processing interrupted"`. -/
theorem persisted_isProcessing_never_true (ms parsed ms0 : List Memo)
    (store : LocalStorage)
    (hstore : store memosKey = some (JsonValue.arr (parsed.map encodeMemo))) :
    (∀ m ∈ ms, (cleanOnSave m).isProcessing ≠ some true ∧
       (m.isProcessing = some true →
         cleanOnSave m = { m with isProcessing := some false, error := some true,
                                  summary := "Processing failed" })) ∧
    saveEffect ms store memosKey
      = some (JsonValue.arr ((ms.map cleanOnSave).map encodeMemo)) ∧
    loadEffect store ms0 = parsed.map cleanOnLoad ∧
    (∀ m ∈ parsed, (cleanOnLoad m).isProcessing ≠ some true ∧
       (m.isProcessing = some true →
         cleanOnLoad m = { m with isProcessing := some false, error := some true,
                                  summary := "Processing interrupted" })) := by
  refine ⟨?_, saveEffect_at_key ms store, loadEffect_decodes store ms0 parsed hstore, ?_⟩
  · intro m _
    constructor
    · unfold cleanOnSave
      by_cases h : m.isProcessing = some true
      · rw [if_pos h]; simp
      · rw [if_neg h]; exact h
    · intro h
      unfold cleanOnSave
      rw [if_pos h]
  · intro m _
    constructor
    · unfold cleanOnLoad
      by_cases h : m.isProcessing = some true
      · rw [if_pos h]; simp
      · rw [if_neg h]; exact h
    · intro h
      unfold cleanOnLoad
      rw [if_pos h]

theorem persisted_isProcessing_never_true_witness :
    (cleanOnSave memoProc).isProcessing ≠ some true ∧
    cleanOnLoad memoProc = { memoProc with isProcessing := some false, error := some true,
                                           summary := "Processing interrupted" } := by
  have h := persisted_isProcessing_never_true [memoProc] [memoProc] []
    (fun k => if k = memosKey then some (JsonValue.arr ([memoProc].map encodeMemo)) else none)
    (by simp)
  exact ⟨(h.1 memoProc (by simp)).1, (h.2.2.2 memoProc (by simp)).2 rfl⟩

/-- C8: persistence round-trip — for every memo list in which no memo has
`isProcessing` true, saving (serialize the cleaned list under
`echo_mind_memos`) and then loading (parse and clean) returns the same memo
list unchanged. -/
theorem memos_save_load_roundtrip (ms ms0 : List Memo) (store : LocalStorage)
    (h : ∀ m ∈ ms, m.isProcessing ≠ some true) :
    loadEffect (saveEffect ms store) ms0 = ms := by
  have h1 : ms.map cleanOnSave = ms := map_clean_id cleanOnSave cleanOnSave_eq_self ms h
  have h2 : loadEffect (saveEffect ms store) ms0 = (ms.map cleanOnSave).map cleanOnLoad :=
    loadEffect_decodes _ _ _ (saveEffect_at_key ms store)
  rw [h2, h1, map_clean_id cleanOnLoad cleanOnLoad_eq_self ms h]

theorem memos_save_load_roundtrip_witness :
    loadEffect (saveEffect [memoA, memoB] emptyStore) [] = [memoA, memoB] :=
  memos_save_load_roundtrip [memoA, memoB] [] emptyStore (by decide)

/-- A Translator state used by the stale-response witness. -/
def sampleTransState : TransState :=
  ⟨5, some ⟨"hola", "hello"⟩, "English", ProcessingStatus.IDLE, false⟩

/-- C2: a stale asynchronous translation response is never applied.  Each
translation (`handleTranslation`) and re-translation (`performReTranslation`)
captures the incremented request-id counter at its start; `cancelTranslation`
increments the counter; and every response handler — the upload callback, the
`translateAudio` success and error paths, and the `translateText`
re-translation success and error paths — leaves the state (in particular
`translationData`, `lastTranslatedTo` and the processing status) unchanged
when its captured id no longer equals the current counter.  Consequently any
id captured before a cancel or a newer request differs from the new counter
value. -/
theorem stale_translation_response_ignored (s : TransState) (rid : ℕ)
    (target translated : String) (data : TransData) (hstale : rid ≠ s.requestId) :
    ((beginTranslation s).1 = s.requestId + 1 ∧
     (beginTranslation s).2.requestId = s.requestId + 1) ∧
    ((beginReTranslation s).1 = s.requestId + 1 ∧
     (beginReTranslation s).2.requestId = s.requestId + 1) ∧
    (cancelTranslation s).requestId = s.requestId + 1 ∧
    (onAudioLoaded rid s = s ∧
     applyTranslateAudioSuccess rid target data s = s ∧
     applyTranslateAudioError rid s = s ∧
     applyReTranslateSuccess rid target translated s = s ∧
     applyReTranslateError rid s = s) ∧
    (∀ r ≤ s.requestId, r ≠ (cancelTranslation s).requestId ∧
       r ≠ (beginTranslation s).2.requestId ∧ r ≠ (beginReTranslation s).2.requestId) := by
  refine ⟨⟨rfl, rfl⟩, ⟨rfl, rfl⟩, rfl, ⟨?_, ?_, ?_, ?_, ?_⟩, ?_⟩
  · unfold onAudioLoaded; rw [if_neg hstale]
  · unfold applyTranslateAudioSuccess; rw [if_neg hstale]
  · unfold applyTranslateAudioError; rw [if_neg hstale]
  · unfold applyReTranslateSuccess; rw [if_neg hstale]
  · unfold applyReTranslateError; rw [if_neg hstale]
  · intro r hr
    exact ⟨by show r ≠ s.requestId + 1; omega,
           by show r ≠ s.requestId + 1; omega,
           by show r ≠ s.requestId + 1; omega⟩

theorem stale_translation_response_ignored_witness :
    applyTranslateAudioSuccess 3 "Thai" ⟨"x", "y"⟩ sampleTransState = sampleTransState ∧
    (cancelTranslation sampleTransState).requestId = 6 := by
  have h := stale_translation_response_ignored sampleTransState 3 "Thai" "z" ⟨"x", "y"⟩
    (by decide)
  exact ⟨h.2.2.2.1.2.1, h.2.2.1⟩

theorem transcriptUpd_frame (memoId t : String) (m : Memo) :
    (transcriptUpd memoId t m).id = m.id ∧
    (transcriptUpd memoId t m).timestamp = m.timestamp ∧
    (transcriptUpd memoId t m).audioBase64 = m.audioBase64 ∧
    (transcriptUpd memoId t m).mimeType = m.mimeType ∧
    (transcriptUpd memoId t m).duration = m.duration ∧
    (transcriptUpd memoId t m).summary = m.summary ∧
    (transcriptUpd memoId t m).isProcessing = m.isProcessing ∧
    (transcriptUpd memoId t m).error = m.error := by
  unfold transcriptUpd
  split <;> simp

theorem summaryUpd_frame (memoId su : String) (m : Memo) :
    (summaryUpd memoId su m).id = m.id ∧
    (summaryUpd memoId su m).timestamp = m.timestamp ∧
    (summaryUpd memoId su m).audioBase64 = m.audioBase64 ∧
    (summaryUpd memoId su m).mimeType = m.mimeType ∧
    (summaryUpd memoId su m).duration = m.duration ∧
    (summaryUpd memoId su m).transcript = m.transcript ∧
    (summaryUpd memoId su m).error = m.error := by
  unfold summaryUpd
  split <;> simp

/-- C4: memo lifecycle updates are in-place and frame-preserving.  The
transcription and summarization updates keep the list length, act pointwise
(every other position holds the unchanged memo), leave memos with a different
id untouched; on the matching memo the transcription update changes only
`transcript` and the summarization update changes only `summary` and
`isProcessing`, while `id`, `timestamp`, `audioBase64`, `mimeType` and
`duration` (and the respective untouched fields) are never modified. -/
theorem memo_updates_frame_preserving (memoId t su : String) (ms : List Memo)
    (m : Memo) (i : ℕ) :
    (applyTranscript memoId t ms).length = ms.length ∧
    (applySummary memoId su ms).length = ms.length ∧
    (applyTranscript memoId t ms)[i]? = (ms[i]?).map (transcriptUpd memoId t) ∧
    (applySummary memoId su ms)[i]? = (ms[i]?).map (summaryUpd memoId su) ∧
    (m.id ≠ memoId → transcriptUpd memoId t m = m ∧ summaryUpd memoId su m = m) ∧
    (m.id = memoId →
       transcriptUpd memoId t m = { m with transcript := t } ∧
       summaryUpd memoId su m = { m with summary := su, isProcessing := some false }) ∧
    ((transcriptUpd memoId t m).id = m.id ∧
     (transcriptUpd memoId t m).timestamp = m.timestamp ∧
     (transcriptUpd memoId t m).audioBase64 = m.audioBase64 ∧
     (transcriptUpd memoId t m).mimeType = m.mimeType ∧
     (transcriptUpd memoId t m).duration = m.duration ∧
     (transcriptUpd memoId t m).summary = m.summary ∧
     (transcriptUpd memoId t m).isProcessing = m.isProcessing ∧
     (transcriptUpd memoId t m).error = m.error) ∧
    ((summaryUpd memoId su m).id = m.id ∧
     (summaryUpd memoId su m).timestamp = m.timestamp ∧
     (summaryUpd memoId su m).audioBase64 = m.audioBase64 ∧
     (summaryUpd memoId su m).mimeType = m.mimeType ∧
     (summaryUpd memoId su m).duration = m.duration ∧
     (summaryUpd memoId su m).transcript = m.transcript ∧
     (summaryUpd memoId su m).error = m.error) := by
  refine ⟨by simp [applyTranscript], by simp [applySummary],
    by simp [applyTranscript], by simp [applySummary], ?_, ?_,
    transcriptUpd_frame memoId t m, summaryUpd_frame memoId su m⟩
  · intro h
    constructor
    · unfold transcriptUpd; rw [if_neg h]
    · unfold summaryUpd; rw [if_neg h]
  · intro h
    constructor
    · unfold transcriptUpd; rw [if_pos h]
    · unfold summaryUpd; rw [if_pos h]

theorem memo_updates_frame_preserving_witness :
    transcriptUpd "a" "T" memoB = memoB ∧
    transcriptUpd "a" "T" memoA = { memoA with transcript := "T" } := by
  have h1 := (memo_updates_frame_preserving "a" "T" "S" [] memoB 0).2.2.2.2.1 (by decide)
  have h2 := (memo_updates_frame_preserving "a" "T" "S" [] memoA 0).2.2.2.2.2.1 rfl
  exact ⟨h1.1, h2.1⟩

/-- C7: memo processing is sequential.  In the success path of
`handleRecordingComplete`, after the awaited transcription the matching memo
holds the transcript while its summary is still the placeholder and
`isProcessing` is still true (the summary has not been computed yet); the
subsequently awaited summarization is applied to exactly that transcript, so
the stored summary is `summarize` of the transcription result; only then is
`isProcessing` cleared and the status returned to `IDLE`. -/
theorem recording_pipeline_sequential (transcribe : String → String → String)
    (summarize : String → String) (memoId : String) (now : ℚ) (blob : BlobModel)
    (base64 : String) (duration : ℚ) (s0 : AppState) :
    let mime := cleanMimeOf blob.type
    let im := initialMemo memoId now base64 mime duration
    let t := transcribe base64 mime
    let st := recordingSuccessStages transcribe summarize memoId now blob base64 duration s0
    st.created.memos.head? = some im ∧
    st.created.status = ProcessingStatus.TRANSCRIBING ∧
    st.transcribed.memos.head? = some { im with transcript := t } ∧
    st.transcribed.status = ProcessingStatus.TRANSCRIBING ∧
    st.summarized.memos.head?
      = some { im with transcript := t, summary := summarize t,
                       isProcessing := some false } ∧
    st.summarized.status = ProcessingStatus.SUMMARIZING ∧
    st.final.memos = st.summarized.memos ∧
    st.final.status = ProcessingStatus.IDLE := by
  refine ⟨rfl, rfl, ?_, rfl, ?_, rfl, rfl, rfl⟩
  · simp [recordingSuccessStages, applyTranscript, transcriptUpd, initialMemo]
  · simp [recordingSuccessStages, applyTranscript, applySummary, transcriptUpd,
      summaryUpd, initialMemo]

/-- C10 as frozen is false on the code: with a nonempty blob (size 1) and
duration `-1`, `handleRecordingComplete` creates a memo — `-1` is not falsy,
so `duration || 1` stores `-1` — whose duration is not strictly positive. -/
theorem recording_duration_positive_counterexample :
    ¬ ∀ m ∈ handleRecordingCreate ⟨1, "audio/webm"⟩ (-1) "m1" 0 "QUJD" [],
        0 < m.duration := by
  intro h
  have hm : initialMemo "m1" 0 "QUJD" (cleanMimeOf "audio/webm") (-1) ∈
      handleRecordingCreate ⟨1, "audio/webm"⟩ (-1) "m1" 0 "QUJD" [] := by
    unfold handleRecordingCreate
    rw [if_neg (by norm_num)]
    exact List.mem_cons_self _ _
  have h2 := h _ hm
  norm_num [initialMemo] at h2

/-- C10 amended: if the duration is below 0.2 and the blob size is 0, no memo
is added and the memo list is unchanged; otherwise a memo is prepended whose
duration is the given duration when that is nonzero and 1 when it is zero —
hence the stored duration is never zero, and it is strictly positive whenever
the given duration is nonnegative. -/
theorem recording_duration_never_zero (blob : BlobModel) (duration : ℚ)
    (memoId : String) (now : ℚ) (base64 : String) (ms : List Memo) :
    (duration < 2/10 ∧ blob.size = 0 →
       handleRecordingCreate blob duration memoId now base64 ms = ms) ∧
    (¬ (duration < 2/10 ∧ blob.size = 0) →
       ∃ m, handleRecordingCreate blob duration memoId now base64 ms = m :: ms ∧
         m.duration = (if duration = 0 then 1 else duration) ∧
         m.duration ≠ 0 ∧
         (0 ≤ duration → 0 < m.duration)) := by
  constructor
  · intro h
    unfold handleRecordingCreate
    rw [if_pos h]
  · intro h
    refine ⟨initialMemo memoId now base64 (cleanMimeOf blob.type) duration, ?_, rfl, ?_, ?_⟩
    · unfold handleRecordingCreate
      rw [if_neg h]
    · show (if duration = 0 then 1 else duration) ≠ 0
      by_cases hd : duration = 0
      · rw [if_pos hd]; norm_num
      · rw [if_neg hd]; exact hd
    · intro hpos
      show 0 < (if duration = 0 then 1 else duration)
      by_cases hd : duration = 0
      · rw [if_pos hd]; norm_num
      · rw [if_neg hd]; exact lt_of_le_of_ne hpos (Ne.symm hd)

theorem recording_duration_never_zero_witness :
    handleRecordingCreate ⟨0, "x"⟩ 0 "id" 0 "b" [] = [] ∧
    ∃ m, handleRecordingCreate ⟨1, "audio/mp4"⟩ 0 "id" 0 "b" [] = [m] ∧ 0 < m.duration := by
  constructor
  · exact (recording_duration_never_zero ⟨0, "x"⟩ 0 "id" 0 "b" []).1 ⟨by norm_num, rfl⟩
  · obtain ⟨m, h1, -, -, h4⟩ :=
      (recording_duration_never_zero ⟨1, "audio/mp4"⟩ 0 "id" 0 "b" []).2
        (by rintro ⟨-, hh⟩; exact Nat.one_ne_zero hh)
    exact ⟨m, h1, h4 le_rfl⟩
